import Mathlib

/-
Verification of the FNOL claims-processing core (src/main.py).

The extraction pipeline's data model is a two-level record: section name →
field name → leaf value, where a leaf is null, a string, or a number
(JSON numbers are modelled exactly as rationals; the inputs exercised here
are all exactly representable, so IEEE double rounding is not observable).
Python dicts are modelled as association lists where a lookup returns the
last binding, matching insertion-overwrite semantics; Python string methods
are modelled over their ASCII behaviour, which covers every string the
repository manipulates.
-/

/-- A leaf value of an extracted record: `null`, a string, or a number. -/
inductive JVal where
  | null
  | str (s : String)
  | num (q : ℚ)
deriving DecidableEq

/-- A record: list of (section name, fields), each field a (name, value) pair.
The source only ever touches sections that are dicts
(`isinstance(extracted[section], dict)`), which is what this type captures. -/
abbrev Record := List (String × List (String × JVal))

/-- Python dict lookup on an association list: the last binding wins,
mirroring insertion-overwrite. Returns `none` when the key is absent
(Python `dict.get` with default `None`). -/
def dictGet {α : Type} (l : List (String × α)) (k : String) : Option α :=
  ((l.filter (fun p => p.1 == k)).getLast?).map Prod.snd

/-- `extracted.get(sec, {}).get(field)` — Python collapses an absent key and
an explicit `None` value; both are `JVal.null` here. -/
def recGet (r : Record) (sec field : String) : JVal :=
  match dictGet r sec with
  | none => JVal.null
  | some fields => (dictGet fields field).getD JVal.null

/-- Python truthiness of a leaf value (`if v:`). -/
def JVal.truthy : JVal → Bool
  | JVal.null => false
  | JVal.str s => s != ""
  | JVal.num q => q != 0

/- Python string-method models (ASCII behaviour). -/

/-- Python `str.strip` whitespace set (ASCII part). -/
def pyWsChar (c : Char) : Bool :=
  c = ' ' || c = '\t' || c = '\n' || c = '\r' || c = '\x0b' || c = '\x0c'

/-- Python `str.strip()`. -/
def pyStrip (s : String) : String :=
  String.mk (((s.data.dropWhile pyWsChar).reverse.dropWhile pyWsChar).reverse)

/-- Python `str.lower()` (ASCII). -/
def pyLower (s : String) : String :=
  String.mk (s.data.map Char.toLower)

/-- Accumulator pass behind `pySplit`. -/
def pySplitAux : List Char → List Char → List String
  | [], acc => if acc.isEmpty then [] else [String.mk acc.reverse]
  | c :: r, acc =>
    if pyWsChar c then
      if acc.isEmpty then pySplitAux r []
      else String.mk acc.reverse :: pySplitAux r []
    else pySplitAux r (c :: acc)

/-- Python `str.split()` with no separator: split on whitespace runs,
discarding empty pieces. -/
def pySplit (s : String) : List String :=
  pySplitAux s.data []

/-- Python `str.isupper()` (ASCII): at least one cased character and no
lowercase cased character. ASCII cased characters are the letters. -/
def pyIsUpper (s : String) : Bool :=
  s.data.any Char.isAlpha && s.data.all (fun c => !c.isLower)

/-- Whether `pat` is a leading run of `text`. -/
def startsWithChars : List Char → List Char → Bool
  | [], _ => true
  | _ :: _, [] => false
  | a :: pa, b :: tb => a == b && startsWithChars pa tb

/-- Whether `pat` occurs contiguously anywhere in the text. -/
def hasSubChars (pat : List Char) : List Char → Bool
  | [] => startsWithChars pat []
  | c :: rest => startsWithChars pat (c :: rest) || hasSubChars pat rest

/-- Python substring test `w in text`. -/
def pyContains (text w : String) : Bool :=
  hasSubChars w.data text.data

/-- Python `str.find(c)`: index of the first occurrence, `none` for -1. -/
def pyFind (l : List Char) (c : Char) : Option Nat :=
  match l with
  | [] => none
  | a :: r => if a = c then some 0 else (pyFind r c).map (· + 1)

/-- Python `str.rfind(c)`: index of the last occurrence, `none` for -1. -/
def pyRfind (l : List Char) (c : Char) : Option Nat :=
  match l with
  | [] => none
  | a :: r =>
    match pyRfind r c with
    | some i => some (i + 1)
    | none => if a = c then some 0 else none

/- Field Normalizer (`normalize_extracted` / `clean_value`). -/

/-- The fixed denylist of known form-caption strings. -/
def form_labels : List String :=
  ["policy number", "policy_number", "insured", "date of loss", "time of loss",
   "location of loss", "description of accident", "description of loss",
   "name of claimant", "contact details", "type of asset", "asset_id",
   "estimated damage", "estimate amount", "claim_type", "insurance claim",
   "insured vehicle", "primary e-mail address", "secondary e-mail address",
   "other vehicle / property damaged", "veh", "date of effective",
   "effective start date", "effective end date", "third parties",
   "attachments", "initial estimate", "initial_estimate"]

/-- `clean_value`: null passes through; a string is nulled when its
stripped-lowered form is a known label or shorter than 2 characters, or when
its stripped form is fully upper-case with at most 3 whitespace-separated
tokens; every other value passes through untouched. -/
def clean_value (v : JVal) : JVal :=
  match v with
  | JVal.null => JVal.null
  | JVal.str s =>
    if form_labels.contains (pyLower (pyStrip s)) || decide ((pyLower (pyStrip s)).length < 2)
    then JVal.null
    else if pyIsUpper (pyStrip s) && decide ((pySplit (pyStrip s)).length ≤ 3)
    then JVal.null
    else JVal.str s
  | JVal.num q => JVal.num q

/-- One section's fields after cleaning. -/
def normalizeFields (fields : List (String × JVal)) : List (String × JVal) :=
  fields.map (fun kv => (kv.1, clean_value kv.2))

/-- `normalize_extracted`: apply `clean_value` to every leaf of every
(dict-valued) section. -/
def normalize_extracted (extracted : Record) : Record :=
  extracted.map (fun sec => (sec.1, normalizeFields sec.2))

/- Completeness Checker (`completeness_agent`). -/

/-- The sixteen canonical mandatory field names, in canonical order. -/
def mandatory : List String :=
  ["Policy Number", "Policyholder Name", "Effective Dates",
   "Date", "Time", "Location", "Description",
   "Claimant", "Third Parties", "Contact Details",
   "Asset Type", "Asset ID", "Estimated Damage",
   "Claim Type", "Attachments", "Initial Estimate"]

/-- Flatten the sections of a record into one field list, in order. -/
def flattenRecord : Record → List (String × JVal)
  | [] => []
  | (_, fields) :: rest => fields ++ flattenRecord rest

/-- `flat.get(f)`: value of a field looked up by name regardless of section
(the last binding wins, as in the Python dict build); absent is null. -/
def flatValue (r : Record) (f : String) : JVal :=
  (dictGet (flattenRecord r) f).getD JVal.null

/-- `v is None or (isinstance(v, str) and v.strip() == "")`. -/
def isMissingValue : JVal → Bool
  | JVal.null => true
  | JVal.str s => pyStrip s == ""
  | JVal.num _ => false

/-- `completeness_agent`: the mandatory names, in order, whose flattened
value is null or a blank string. The source also poses an advisory yes/no
question to the oracle and discards the answer (`_ = run_llm_bool(...)`),
so it does not affect the returned list and is not modelled. -/
def completeness_agent (r : Record) : List String :=
  mandatory.filter (fun f => isMissingValue (flatValue r f))

/- Signal Agents. Each agent takes the oracle's yes/no answer for the one
question it would pose as an `Option Bool` argument: `some b` is an
unambiguous answer, `none` is "unknown" (no positive or negative token) or
an unposed question. The deterministic fallback of each agent is spelled
out as its own definition, copied from the fallback lines of the source. -/

/-- `investigation_agent` fallback (source lines 220-227): absent or empty
description yields false, else a case-insensitive keyword search. -/
def investigation_fallback (description : Option String) : Bool :=
  match description with
  | none => false
  | some d =>
    if d = "" then false
    else ["fraud", "inconsistent", "staged"].any (fun w => pyContains (pyLower d) w)

/-- `investigation_agent`: consult the oracle only when the description is
truthy and longer than 10 characters; an unambiguous answer is returned
as-is, anything else falls through to the keyword fallback. The description
is `None` or a string in every pipeline run, which is the domain used here. -/
def investigation_agent (oracle : Option Bool) (description : Option String) : Bool :=
  match (match description with
         | some d => if d != "" && decide (d.length > 10) then oracle else none
         | none => none) with
  | some result => result
  | none => investigation_fallback description

/-- `injury_agent` fallback (source lines 247-250): false when Claim Type is
falsy, else whether `str(claim_type).lower()` contains "injury". `str()` of
a numeric value is made of digits, sign and dot, so only the string case can
contain the keyword. -/
def injury_fallback (claim_type : JVal) : Bool :=
  if claim_type.truthy then
    match claim_type with
    | JVal.str s => pyContains (pyLower s) "injury"
    | _ => false
  else false

/-- `injury_agent`: consult the oracle when Claim Type or Description is
truthy; otherwise, or on an ambiguous answer, use the keyword fallback. -/
def injury_agent (oracle : Option Bool) (extracted : Record) : Bool :=
  match (if (recGet extracted "Other Mandatory Fields" "Claim Type").truthy
            || (recGet extracted "Incident Information" "Description").truthy
         then oracle else none) with
  | some result => result
  | none => injury_fallback (recGet extracted "Other Mandatory Fields" "Claim Type")

/- Fast-track numeric fallback parsing. -/

/-- `s.replace(",", "")`. -/
def stripCommas (s : String) : String :=
  String.mk (s.data.filter (fun c => c != ','))

/-- Value of a digit run. -/
def digitsToNat (l : List Char) : Nat :=
  l.foldl (fun a c => 10 * a + (c.toNat - 48)) 0

/-- First match of the regex `[0-9]+(?:\.[0-9]+)?`, exactly: scan to the
first digit, take the maximal digit run, then a fractional part only when a
dot followed by at least one digit comes next. The matched literal is
returned as a pair `(m, k)` denoting the exact value `m / 10 ^ k`: digits
with the dot removed, and the count of fractional digits. -/
def firstNum : List Char → Option (Nat × Nat)
  | [] => none
  | c :: rest =>
    if c.isDigit then
      some (
        match (c :: rest).dropWhile Char.isDigit with
        | '.' :: r3 =>
          if (r3.takeWhile Char.isDigit).isEmpty then
            (digitsToNat ((c :: rest).takeWhile Char.isDigit), 0)
          else
            (digitsToNat ((c :: rest).takeWhile Char.isDigit) *
                10 ^ (r3.takeWhile Char.isDigit).length +
              digitsToNat (r3.takeWhile Char.isDigit),
             (r3.takeWhile Char.isDigit).length)
        | _ => (digitsToNat ((c :: rest).takeWhile Char.isDigit), 0))
    else firstNum rest

/-- `fasttrack_agent` fallback (source lines 268-283): absent damage is
false; a numeric damage compares against 25000 directly; a string has its
commas removed, its first numeric substring extracted and compared; no
numeric substring is false. `float(nums[0]) < 25000` is compared exactly:
with the matched literal's value `m / 10 ^ k`, it is `m < 25000 * 10 ^ k`
(the inputs in scope are exact in IEEE double, so no rounding intervenes).
The `float()` call cannot fail on a regex match, so the `except` branch is
unreachable. -/
def fasttrack_fallback (dmg : JVal) : Bool :=
  match dmg with
  | JVal.null => false
  | JVal.num q => decide (q < 25000)
  | JVal.str s =>
    match firstNum (stripCommas s).data with
    | none => false
    | some mk => decide (mk.1 < 25000 * 10 ^ mk.2)

/-- `fasttrack_agent`: consult the oracle when the damage value is truthy;
otherwise, or on an ambiguous answer, use the deterministic parse. -/
def fasttrack_agent (oracle : Option Bool) (extracted : Record) : Bool :=
  match (if (recGet extracted "Asset Details" "Estimated Damage").truthy
         then oracle else none) with
  | some result => result
  | none => fasttrack_fallback (recGet extracted "Asset Details" "Estimated Damage")

/-- A record whose Asset Details holds just the given Estimated Damage. -/
def damageRecord (v : JVal) : Record :=
  [("Asset Details", [("Estimated Damage", v)])]

/- Routing Coordinator (`decide_route`). -/

/-- `decide_route`: fixed precedence, first match wins. The extracted record
parameter is accepted but never read. -/
def decide_route (extracted : Record) (missing : List String)
    (inv inj ft : Bool) : String × String :=
  if inv then
    ("Investigation Flag", "Description contains investigation-related keywords.")
  else if missing ≠ [] then
    ("Manual review", "Mandatory fields missing: " ++ String.intercalate ", " missing ++ ".")
  else if inj then
    ("Specialist Queue", "Claim type indicates injury.")
  else if ft then
    ("Fast-track", "Estimated damage is below 25,000.")
  else
    ("Manual review", "No routing rule matched confidently.")

/- Response Repair (`extract_json`): a model of Python's strict JSON parse
(`json.JSONDecoder().raw_decode`) and of `json.dumps`. The grammar follows
the json module: strict strings (unescaped control characters refused),
no trailing commas, numbers per `NUMBER_RE`. The module's nonstandard
`NaN`/`Infinity` literals are outside the model, and a nesting depth beyond
the fuel fails the strict parse just as Python's recursion limit does. -/

/-- A parsed JSON number: the module yields an `int` when there is no
fraction and no exponent, a float otherwise (here an exact rational). -/
inductive JNum where
  | int (n : Int)
  | float (q : ℚ)

/-- A parsed JSON value. -/
inductive JSON where
  | null
  | bool (b : Bool)
  | num (n : JNum)
  | str (s : String)
  | arr (elems : List JSON)
  | obj (members : List (String × JSON))

/-- Skip the json module's whitespace (space, tab, newline, return). -/
def skipWs : List Char → List Char
  | [] => []
  | c :: r => if c = ' ' || c = '\t' || c = '\n' || c = '\r' then skipWs r else c :: r

/-- Value of one hex digit, either case. -/
def hexDigitVal (c : Char) : Option Nat :=
  if '0' ≤ c ∧ c ≤ '9' then some (c.toNat - 48)
  else if 'a' ≤ c ∧ c ≤ 'f' then some (c.toNat - 87)
  else if 'A' ≤ c ∧ c ≤ 'F' then some (c.toNat - 55)
  else none

/-- Value of a `\uXXXX` escape's four hex digits. -/
def hex4 (a b c d : Char) : Option Nat :=
  match hexDigitVal a, hexDigitVal b, hexDigitVal c, hexDigitVal d with
  | some x, some y, some z, some w => some (4096 * x + 256 * y + 16 * z + w)
  | _, _, _, _ => none

/-- String scan after the opening quote (`py_scanstring`, strict mode):
ends at an unescaped quote, refuses raw control characters, handles the
eight simple escapes and `\uXXXX` with surrogate pairing. A lone surrogate
has no scalar value; Lean's `Char.ofNat` then falls back, where Python
builds a lone-surrogate str (no input in scope exercises this). -/
def parseStringChars : Nat → List Char → List Char → Option (String × List Char)
  | 0, _, _ => none
  | Nat.succ _, [], _ => none
  | Nat.succ _, '"' :: rest, acc => some (String.mk acc.reverse, rest)
  | Nat.succ fuel, '\\' :: rest, acc =>
    (match rest with
     | '"' :: r => parseStringChars fuel r ('"' :: acc)
     | '\\' :: r => parseStringChars fuel r ('\\' :: acc)
     | '/' :: r => parseStringChars fuel r ('/' :: acc)
     | 'b' :: r => parseStringChars fuel r ('\x08' :: acc)
     | 'f' :: r => parseStringChars fuel r ('\x0c' :: acc)
     | 'n' :: r => parseStringChars fuel r ('\n' :: acc)
     | 'r' :: r => parseStringChars fuel r ('\r' :: acc)
     | 't' :: r => parseStringChars fuel r ('\t' :: acc)
     | 'u' :: a :: b :: c :: d :: r =>
       match hex4 a b c d with
       | none => none
       | some u =>
         if 0xd800 ≤ u ∧ u ≤ 0xdbff then
           match r with
           | '\\' :: 'u' :: e :: f :: g :: h :: r2 =>
             (match hex4 e f g h with
              | none => none
              | some u2 =>
                if 0xdc00 ≤ u2 ∧ u2 ≤ 0xdfff then
                  parseStringChars fuel r2
                    (Char.ofNat (0x10000 + (u - 0xd800) * 0x400 + (u2 - 0xdc00)) :: acc)
                else parseStringChars fuel r (Char.ofNat u :: acc))
           | '\\' :: 'u' :: _ => none
           | _ => parseStringChars fuel r (Char.ofNat u :: acc)
         else parseStringChars fuel r (Char.ofNat u :: acc)
     | _ => none)
  | Nat.succ fuel, c :: rest, acc =>
    if c.toNat < 0x20 then none else parseStringChars fuel rest (c :: acc)

/-- Integer part per `NUMBER_RE`: a lone `0`, or a nonzero digit and its run. -/
def parseIntPart : List Char → Option (Nat × List Char)
  | '0' :: r => some (0, r)
  | c :: r =>
    if c.isDigit then
      some (digitsToNat (c :: r.takeWhile Char.isDigit), r.dropWhile Char.isDigit)
    else none
  | [] => none

/-- Optional fraction `(?:\.(\d+))?`: value and digit count, or nothing
consumed when the group cannot match. -/
def parseFracOpt (l : List Char) : Option (Nat × Nat) × List Char :=
  match l with
  | '.' :: r =>
    if (r.takeWhile Char.isDigit).isEmpty then (none, l)
    else (some (digitsToNat (r.takeWhile Char.isDigit), (r.takeWhile Char.isDigit).length),
          r.dropWhile Char.isDigit)
  | _ => (none, l)

/-- Optional exponent `(?:[eE][-+]?(\d+))?`: signed value, or nothing
consumed when the group cannot match. -/
def parseExpOpt (l : List Char) : Option Int × List Char :=
  match l with
  | e :: '+' :: r2 =>
    if (e = 'e' ∨ e = 'E') ∧ ¬(r2.takeWhile Char.isDigit).isEmpty then
      (some ((digitsToNat (r2.takeWhile Char.isDigit) : Int)), r2.dropWhile Char.isDigit)
    else (none, l)
  | e :: '-' :: r2 =>
    if (e = 'e' ∨ e = 'E') ∧ ¬(r2.takeWhile Char.isDigit).isEmpty then
      (some (-(digitsToNat (r2.takeWhile Char.isDigit) : Int)), r2.dropWhile Char.isDigit)
    else (none, l)
  | e :: r =>
    if (e = 'e' ∨ e = 'E') ∧ ¬(r.takeWhile Char.isDigit).isEmpty then
      (some ((digitsToNat (r.takeWhile Char.isDigit) : Int)), r.dropWhile Char.isDigit)
    else (none, l)
  | [] => (none, l)

/-- Number match at the current position: optional minus, integer part,
optional fraction, optional exponent; `int` iff both options are absent. -/
def parseNumber (l : List Char) : Option (JNum × List Char) :=
  match (match l with
         | '-' :: r => (true, r)
         | _ => (false, l)) with
  | (neg, l1) =>
    match parseIntPart l1 with
    | none => none
    | some (ip, r1) =>
      match parseFracOpt r1 with
      | (frac, r2) =>
        match parseExpOpt r2 with
        | (ex, r3) =>
          match frac, ex with
          | none, none =>
            some (JNum.int (if neg then -(ip : Int) else (ip : Int)), r3)
          | _, _ =>
            some (JNum.float
              ((if neg then (-1 : ℚ) else 1) *
                ((ip : ℚ) +
                  (match frac with
                   | none => 0
                   | some fv => (fv.1 : ℚ) / (10 : ℚ) ^ fv.2)) *
                (10 : ℚ) ^ (ex.getD 0)), r3)

/-- What one fueled parse step is asked to read. -/
inductive PMode where
  | value
  | pairs
  | items

/-- What one fueled parse step produced. -/
inductive PResult where
  | val (j : JSON)
  | pairs (ms : List (String × JSON))
  | items (xs : List JSON)

/-- The scanner: `value` reads one JSON value at the current position (no
leading whitespace, as in `raw_decode`); `pairs` reads `"key": value`
members up to the closing brace of a non-empty object; `items` reads the
elements of a non-empty array. Fuel decreases on every recursion; each
recursion consumes at least one character first, so fuel `length + 1`
never runs out — except past Python's own recursion limit, where both fail. -/
def parseCore : Nat → PMode → List Char → Option (PResult × List Char)
  | 0, _, _ => none
  | Nat.succ fuel, PMode.value, l =>
    match l with
    | '"' :: rest =>
      match parseStringChars (rest.length + 1) rest [] with
      | none => none
      | some (s, r) => some (PResult.val (JSON.str s), r)
    | '{' :: rest =>
      match skipWs rest with
      | '}' :: r => some (PResult.val (JSON.obj []), r)
      | l2 =>
        match parseCore fuel PMode.pairs l2 with
        | some (PResult.pairs ms, r) => some (PResult.val (JSON.obj ms), r)
        | _ => none
    | '[' :: rest =>
      match skipWs rest with
      | ']' :: r => some (PResult.val (JSON.arr []), r)
      | l2 =>
        match parseCore fuel PMode.items l2 with
        | some (PResult.items xs, r) => some (PResult.val (JSON.arr xs), r)
        | _ => none
    | 'n' :: 'u' :: 'l' :: 'l' :: rest => some (PResult.val JSON.null, rest)
    | 't' :: 'r' :: 'u' :: 'e' :: rest => some (PResult.val (JSON.bool true), rest)
    | 'f' :: 'a' :: 'l' :: 's' :: 'e' :: rest => some (PResult.val (JSON.bool false), rest)
    | _ =>
      match parseNumber l with
      | none => none
      | some (n, r) => some (PResult.val (JSON.num n), r)
  | Nat.succ fuel, PMode.pairs, l =>
    match l with
    | '"' :: rest =>
      match parseStringChars (rest.length + 1) rest [] with
      | none => none
      | some (key, r1) =>
        match skipWs r1 with
        | ':' :: r2 =>
          match parseCore fuel PMode.value (skipWs r2) with
          | some (PResult.val v, r3) =>
            (match skipWs r3 with
             | ',' :: r4 =>
               match parseCore fuel PMode.pairs (skipWs r4) with
               | some (PResult.pairs ms, r5) => some (PResult.pairs ((key, v) :: ms), r5)
               | _ => none
             | '}' :: r4 => some (PResult.pairs [(key, v)], r4)
             | _ => none)
          | _ => none
        | _ => none
    | _ => none
  | Nat.succ fuel, PMode.items, l =>
    match parseCore fuel PMode.value l with
    | some (PResult.val v, r1) =>
      (match skipWs r1 with
       | ',' :: r2 =>
         match parseCore fuel PMode.items (skipWs r2) with
         | some (PResult.items xs, r3) => some (PResult.items (v :: xs), r3)
         | _ => none
       | ']' :: r2 => some (PResult.items [v], r2)
       | _ => none)
    | _ => none

/-- One JSON value read at the head of the text, with the unconsumed rest:
`raw_decode` ignores anything after the value. -/
def rawDecode (l : List Char) : Option (JSON × List Char) :=
  match parseCore (l.length + 1) PMode.value l with
  | some (PResult.val j, r) => some (j, r)
  | _ => none

/- `json.dumps` with its defaults: separators `", "` and `": "`, and
`ensure_ascii` — every character outside space..tilde is `\uXXXX`-escaped. -/

/-- Lowercase hex digit. -/
def hexDigitChar (n : Nat) : Char :=
  if n < 10 then Char.ofNat (48 + n) else Char.ofNat (87 + n)

/-- A `\uXXXX` escape for one UTF-16 code unit. -/
def uEscape (n : Nat) : String :=
  "\\u" ++ String.mk [hexDigitChar (n / 4096 % 16), hexDigitChar (n / 256 % 16),
                      hexDigitChar (n / 16 % 16), hexDigitChar (n % 16)]

/-- Serialize one character of a string: the two mandatory escapes, the
short control escapes, `\uXXXX` (a surrogate pair beyond the BMP) outside
the printable ASCII range, the character itself inside it. -/
def escChar (c : Char) : String :=
  if c = '"' then "\\\""
  else if c = '\\' then "\\\\"
  else if c = '\n' then "\\n"
  else if c = '\r' then "\\r"
  else if c = '\t' then "\\t"
  else if c = '\x08' then "\\b"
  else if c = '\x0c' then "\\f"
  else if c.toNat < 0x20 ∨ c.toNat > 0x7e then
    if c.toNat ≥ 0x10000 then
      uEscape (0xd800 + (c.toNat - 0x10000) / 0x400) ++
        uEscape (0xdc00 + (c.toNat - 0x10000) % 0x400)
    else uEscape c.toNat
  else String.mk [c]

/-- Serialize a string with quotes and escapes. -/
def strDumps (s : String) : String :=
  "\"" ++ String.join (s.data.map escChar) ++ "\""

/-- Smallest power of ten the denominator divides, within a bound. -/
def findPow10 (den : Nat) : Nat → Option Nat
  | 0 => if den ≤ 1 then some 0 else none
  | k + 1 =>
    match findPow10 den k with
    | some j => some j
    | none => if (10 ^ (k + 1)) % den = 0 then some (k + 1) else none

/-- Serialize a float. Python reprs the IEEE double (shortest roundtrip,
exponent notation for extremes); this model prints the exact decimal when
the denominator divides a power of ten — true of every literal the parser
produces — and is never evaluated by the claims. -/
def floatDumps (q : ℚ) : String :=
  match findPow10 q.den 340 with
  | none => (if q < 0 then "-" else "") ++ toString q.num.natAbs ++ "/" ++ toString q.den
  | some k =>
    (if q < 0 then "-" else "") ++
      (match (q.num.natAbs * 10 ^ k / q.den, k) with
       | (scaled, 0) => toString scaled ++ ".0"
       | (scaled, _) =>
         (if (toString scaled).length ≤ k then
            String.mk (List.replicate (k + 1 - (toString scaled).length) '0') ++ toString scaled
          else toString scaled).dropRight k ++ "." ++
         (if (toString scaled).length ≤ k then
            String.mk (List.replicate (k + 1 - (toString scaled).length) '0') ++ toString scaled
          else toString scaled).takeRight k)

/-- Serialize a number: an int exactly, a float per `floatDumps`. -/
def numDumps : JNum → String
  | JNum.int n => toString n
  | JNum.float q => floatDumps q

/-- `json.dumps` of a parsed value with default options, fueled by any
bound on the value's depth (a parsed value's depth is below the length of
the text it came from, which is the fuel `extract_json` passes). -/
def jsonDumps : Nat → JSON → String
  | 0, _ => ""
  | Nat.succ fuel, j =>
    match j with
    | JSON.null => "null"
    | JSON.bool true => "true"
    | JSON.bool false => "false"
    | JSON.num n => numDumps n
    | JSON.str s => strDumps s
    | JSON.arr xs => "[" ++ String.intercalate ", " (xs.map (jsonDumps fuel)) ++ "]"
    | JSON.obj ms =>
      "\x7b" ++
        String.intercalate ", " (ms.map (fun kv => strDumps kv.1 ++ ": " ++ jsonDumps fuel kv.2)) ++
      "\x7d"

/- `extract_json` itself. -/

/-- The two failures of Response Repair: `No JSON found in LLM output` and
`No closing brace found`. -/
inductive RepairError where
  | MalformedResponse
  | NoClosingBrace
deriving DecidableEq

/-- The strict parse `raw_decode(text, start)` from the first opening
brace; `none` when there is no opening brace or the parse fails. -/
def strictParse (text : String) : Option (JSON × List Char) :=
  match pyFind text.data '\x7b' with
  | none => none
  | some start => rawDecode (text.data.drop start)

/-- `extract_json`: find the first opening brace (error when there is
none); strict-parse from it and on success return the `json.dumps`
serialization of the parsed object; on parse failure slice from that brace
to the last closing brace (error when there is none) and return the raw,
unparsed slice. -/
def extract_json (text : String) : Except RepairError String :=
  match pyFind text.data '\x7b' with
  | none => Except.error RepairError.MalformedResponse
  | some start =>
    match rawDecode (text.data.drop start) with
    | some (obj, _) => Except.ok (jsonDumps (text.data.length + 1) obj)
    | none =>
      match pyRfind text.data '\x7d' with
      | none => Except.error RepairError.NoClosingBrace
      | some e => Except.ok (String.mk ((text.data.take (e + 1)).drop start))

/-- A fully populated record: every canonical field non-null and non-blank. -/
def fullRecord : Record :=
  [("Policy Information",
    [("Policy Number", JVal.str "PN-12345"), ("Policyholder Name", JVal.str "Jane Roe"),
     ("Effective Dates", JVal.str "2024-01-01 to 2025-01-01")]),
   ("Incident Information",
    [("Date", JVal.str "2024-06-01"), ("Time", JVal.str "14:30"),
     ("Location", JVal.str "Main St"), ("Description", JVal.str "minor collision")]),
   ("Involved Parties",
    [("Claimant", JVal.str "Jane Roe"), ("Third Parties", JVal.str "none noted"),
     ("Contact Details", JVal.str "555-0100")]),
   ("Asset Details",
    [("Asset Type", JVal.str "car"), ("Asset ID", JVal.str "VIN-1"),
     ("Estimated Damage", JVal.str "4000")]),
   ("Other Mandatory Fields",
    [("Claim Type", JVal.str "auto"), ("Attachments", JVal.str "photo.jpg"),
     ("Initial Estimate", JVal.str "4000")])]

/- Helper lemmas. -/

/-- `clean_value` either nulls a leaf or returns it untouched. -/
theorem clean_value_null_or_self (v : JVal) :
    clean_value v = JVal.null ∨ clean_value v = v := by
  cases v with
  | null => exact Or.inl rfl
  | str s =>
    simp only [clean_value]
    split
    · exact Or.inl rfl
    · split
      · exact Or.inl rfl
      · exact Or.inr rfl
  | num q => exact Or.inr rfl

/-- `clean_value` is idempotent. -/
theorem clean_value_idem (v : JVal) :
    clean_value (clean_value v) = clean_value v := by
  rcases clean_value_null_or_self v with h | h
  · rw [h]
    rfl
  · conv_lhs => rw [h]

/-- `normalizeFields` is idempotent. -/
theorem normalizeFields_idem (l : List (String × JVal)) :
    normalizeFields (normalizeFields l) = normalizeFields l := by
  induction l with
  | nil => rfl
  | cons kv r ih =>
    simp only [normalizeFields, List.map_cons] at *
    rw [clean_value_idem, ih]

/-- A found character is absent exactly when `pyFind` reports no index. -/
theorem pyFind_eq_none_iff (l : List Char) (c : Char) :
    pyFind l c = none ↔ c ∉ l := by
  induction l with
  | nil => simp [pyFind]
  | cons a r ih =>
    simp only [pyFind]
    by_cases h : a = c
    · subst h
      simp
    · have h' : ¬(c = a) := fun hh => h hh.symm
      simp [h, Option.map_eq_none', ih, List.mem_cons, h']

/-- `pyFind` only reports indices of present characters. -/
theorem pyFind_some_mem {l : List Char} {c : Char} {i : Nat}
    (h : pyFind l c = some i) : c ∈ l := by
  by_contra hm
  rw [(pyFind_eq_none_iff l c).mpr hm] at h
  cases h

/-- A character is absent exactly when `pyRfind` reports no index. -/
theorem pyRfind_eq_none_iff (l : List Char) (c : Char) :
    pyRfind l c = none ↔ c ∉ l := by
  induction l with
  | nil => simp [pyRfind]
  | cons a r ih =>
    simp only [pyRfind]
    cases hr : pyRfind r c with
    | some i =>
      have hmem : c ∈ r := by
        by_contra hm
        have hn := ih.mpr hm
        rw [hr] at hn
        exact Option.noConfusion hn
      simp [hr, List.mem_cons, hmem]
    | none =>
      have hnr : c ∉ r := ih.mp hr
      by_cases h : a = c
      · subst h
        simp [hr]
      · have h' : ¬(c = a) := fun hh => h hh.symm
        simp [hr, h, h', List.mem_cons, hnr]

/-- `pyRfind` only reports indices of present characters. -/
theorem pyRfind_some_mem {l : List Char} {c : Char} {i : Nat}
    (h : pyRfind l c = some i) : c ∈ l := by
  by_contra hm
  rw [(pyRfind_eq_none_iff l c).mpr hm] at h
  cases h

/- The claims. -/

/-- Claim C1: `decide_route` applies the fixed precedence with first match
winning — investigation beats everything; else a non-empty missing list
yields Manual review naming exactly the given missing fields, comma-joined
in their given (canonical) order; else injury yields Specialist Queue; else
fast-track yields Fast-track; else Manual review with the no-rule reason. -/
theorem decide_route_precedence (r : Record) (missing : List String) (inv inj ft : Bool) :
    (inv = true → decide_route r missing inv inj ft =
      ("Investigation Flag", "Description contains investigation-related keywords.")) ∧
    (inv = false → missing ≠ [] → decide_route r missing inv inj ft =
      ("Manual review", "Mandatory fields missing: " ++ String.intercalate ", " missing ++ ".")) ∧
    (inv = false → missing = [] → inj = true → decide_route r missing inv inj ft =
      ("Specialist Queue", "Claim type indicates injury.")) ∧
    (inv = false → missing = [] → inj = false → ft = true → decide_route r missing inv inj ft =
      ("Fast-track", "Estimated damage is below 25,000.")) ∧
    (inv = false → missing = [] → inj = false → ft = false → decide_route r missing inv inj ft =
      ("Manual review", "No routing rule matched confidently.")) := by
  refine ⟨?_, ?_, ?_, ?_, ?_⟩ <;> intros <;> subst_vars <;> simp_all [decide_route]

/-- Witness for C1: the missing-fields branch at a concrete input. -/
theorem decide_route_precedence_witness :
    decide_route [] ["Policy Number"] false false false =
      ("Manual review",
       "Mandatory fields missing: " ++ String.intercalate ", " ["Policy Number"] ++ ".") :=
  (decide_route_precedence [] ["Policy Number"] false false false).2.1 rfl (by simp)

/-- Claim C2: the completeness checker returns exactly the canonical
mandatory names, in canonical order (a sublist of the canonical sixteen),
whose value — looked up by name across all sections — is null or blank; and
it is empty exactly when every one of the sixteen is non-null and non-blank. -/
theorem completeness_agent_exact (r : Record) :
    List.Sublist (completeness_agent r) mandatory ∧
    (∀ f, f ∈ completeness_agent r ↔
      f ∈ mandatory ∧ isMissingValue (flatValue r f) = true) ∧
    (completeness_agent r = [] ↔
      ∀ f ∈ mandatory, isMissingValue (flatValue r f) = false) := by
  refine ⟨List.filter_sublist _, fun f => ?_, ?_⟩
  · simp [completeness_agent, List.mem_filter]
  · simp [completeness_agent, List.filter_eq_nil_iff]

/-- Witness for C2: a fully populated record has no missing fields. -/
theorem completeness_agent_exact_witness : completeness_agent fullRecord = [] :=
  (completeness_agent_exact fullRecord).2.2.mpr (by decide)

/-- Claim C3: the field normalizer is idempotent. -/
theorem normalize_extracted_idempotent (r : Record) :
    normalize_extracted (normalize_extracted r) = normalize_extracted r := by
  induction r with
  | nil => rfl
  | cons sec rest ih =>
    simp only [normalize_extracted, List.map_cons] at *
    rw [normalizeFields_idem, ih]

/-- Counterexample for C4: the claim states that normalizing the leaf value
`"POL-88271"` leaves it unchanged, but `clean_value` replaces it with null:
Python `isupper()` is true for it (its only cased characters are the
upper-case `POL`) and it is a single whitespace-separated token. -/
theorem clean_value_pol_counterexample :
    ¬ (clean_value (JVal.str "POL-88271") = JVal.str "POL-88271") := by decide

/-- Claim C4 as amended: normalizing
`{"Policy Information": {"Policy Number": "POLICY NUMBER"}}` yields
`{"Policy Information": {"Policy Number": null}}`, and normalizing the leaf
value `"POL-88271"` also yields null (the all-caps ≤3-token heuristic
treats it as a caption). -/
theorem normalize_label_stripping :
    normalize_extracted
        [("Policy Information", [("Policy Number", JVal.str "POLICY NUMBER")])] =
      [("Policy Information", [("Policy Number", JVal.null)])] ∧
    clean_value (JVal.str "POL-88271") = JVal.null := by decide

/-- Claim C5: with the oracle answer unknown, each of the three signal
agents returns exactly its deterministic fallback value — always a boolean,
never an error. -/
theorem agents_fall_back_on_unknown (d : Option String) (r : Record) :
    investigation_agent none d = investigation_fallback d ∧
    injury_agent none r = injury_fallback (recGet r "Other Mandatory Fields" "Claim Type") ∧
    fasttrack_agent none r = fasttrack_fallback (recGet r "Asset Details" "Estimated Damage") := by
  refine ⟨?_, ?_, ?_⟩
  · cases d with
    | none => rfl
    | some s => simp only [ investigation_agent, ite_self]
  · simp only [injury_agent, ite_self]
  · simp only [fasttrack_agent, ite_self]

/-- Claim C6: under the deterministic fallback the fast-track agent accepts
`"24999"` and `"5,000 USD"` and rejects `"25000"` and `"$25,000.00"`; in
general on a string damage value it removes the commas, extracts the first
contiguous numeric substring and compares its exact value `m / 10 ^ k`
against the threshold 25000. -/
theorem fasttrack_threshold_boundary :
    fasttrack_agent none (damageRecord (JVal.str "24999")) = true ∧
    fasttrack_agent none (damageRecord (JVal.str "25000")) = false ∧
    fasttrack_agent none (damageRecord (JVal.str "$25,000.00")) = false ∧
    fasttrack_agent none (damageRecord (JVal.str "5,000 USD")) = true ∧
    ∀ s : String, fasttrack_agent none (damageRecord (JVal.str s)) =
      (match firstNum (stripCommas s).data with
       | none => false
       | some mk => decide (mk.1 < 25000 * 10 ^ mk.2)) := by
  refine ⟨by decide, by decide, by decide, by decide, fun s => ?_⟩
  simp only [fasttrack_agent, ite_self]
  rfl

/-- Claim C7: Response Repair fails with `MalformedResponse` exactly when
the text has no opening brace; fails with `NoClosingBrace` when the strict
parse from the first opening brace fails and there is no closing brace;
succeeds otherwise; and on the fenced concrete input it succeeds,
extracting the object with the single member `"a": 1`. -/
theorem extract_json_modes (text : String) :
    (extract_json text = Except.error RepairError.MalformedResponse ↔
      '\x7b' ∉ text.data) ∧
    ('\x7b' ∈ text.data → strictParse text = none → '\x7d' ∉ text.data →
      extract_json text = Except.error RepairError.NoClosingBrace) ∧
    ('\x7b' ∈ text.data → (strictParse text ≠ none ∨ '\x7d' ∈ text.data) →
      ∃ s, extract_json text = Except.ok s) ∧
    extract_json "Sure, here you go:\n```json\n\x7b\"a\":1\x7d\n```" =
      Except.ok "\x7b\"a\": 1\x7d" := by
  refine ⟨?_, ?_, ?_, rfl⟩
  · cases hf : pyFind text.data '\x7b' with
    | none =>
      simp [extract_json, hf, (pyFind_eq_none_iff _ _).mp hf]
    | some start =>
      have hmem := pyFind_some_mem hf
      cases hp : rawDecode (text.data.drop start) with
      | some pr =>
        simp [extract_json, hf, hp, hmem]
      | none =>
        cases hr : pyRfind text.data '\x7d' with
        | none => simp [extract_json, hf, hp, hr, hmem]
        | some e => simp [extract_json, hf, hp, hr, hmem]
  · intro hmem hsp hnc
    cases hf : pyFind text.data '\x7b' with
    | none => exact absurd hmem ((pyFind_eq_none_iff _ _).mp hf)
    | some start =>
      have hp : rawDecode (text.data.drop start) = none := by
        have := hsp
        rw [strictParse, hf] at this
        exact this
      have hr : pyRfind text.data '\x7d' = none := (pyRfind_eq_none_iff _ _).mpr hnc
      simp [extract_json, hf, hp, hr]
  · intro hmem hok
    cases hf : pyFind text.data '\x7b' with
    | none => exact absurd hmem ((pyFind_eq_none_iff _ _).mp hf)
    | some start =>
      cases hp : rawDecode (text.data.drop start) with
      | some pr =>
        refine ⟨jsonDumps (text.data.length + 1) pr.1, ?_⟩
        simp [extract_json, hf, hp]
      | none =>
        have hsp : strictParse text = none := by rw [strictParse, hf]; exact hp
        rcases hok with hok | hok
        · exact absurd hsp hok
        · cases hr : pyRfind text.data '\x7d' with
          | none => exact absurd hok ((pyRfind_eq_none_iff _ _).mp hr)
          | some e =>
            refine ⟨String.mk ((text.data.take (e + 1)).drop start), ?_⟩
            simp [extract_json, hf, hp, hr]

/-- Witness for C7: strict parse fails on a text with an opening but no
closing brace, giving the `NoClosingBrace` failure. -/
theorem extract_json_modes_witness :
    extract_json "\x7bx" = Except.error RepairError.NoClosingBrace :=
  (extract_json_modes "\x7bx").2.1 (by decide) rfl (by decide)

/-- Claim C8 evaluation: on the input `"\x7bx\x7d"` the strict parse fails,
yet Response Repair succeeds and returns the raw slice `"\x7bx\x7d"`
unchanged — a string the strict parser itself rejects, so not a
syntactically valid structured object. -/
theorem extract_json_returns_invalid_slice :
    extract_json "\x7bx\x7d" = Except.ok "\x7bx\x7d" ∧
    rawDecode "\x7bx\x7d".data = none :=
  ⟨rfl, rfl⟩

/-- Claim C9: the routing decision does not depend on the extracted record
argument. -/
theorem decide_route_ignores_record (r1 r2 : Record) (missing : List String)
    (inv inj ft : Bool) :
    decide_route r1 missing inv inj ft = decide_route r2 missing inv inj ft := rfl

/-- Claim C10: a present-but-falsy Estimated Damage never reaches the
oracle — for every oracle behaviour the fast-track agent is decided by the
fallback alone: numeric 0 yields true, the empty string yields false. -/
theorem fasttrack_falsy_skips_oracle (oracle : Option Bool) (r : Record) :
    (recGet r "Asset Details" "Estimated Damage" = JVal.num 0 →
      fasttrack_agent oracle r = true) ∧
    (recGet r "Asset Details" "Estimated Damage" = JVal.str "" →
      fasttrack_agent oracle r = false) := by
  constructor
  · intro h
    have ht : (JVal.num 0).truthy = false := by decide
    simp only [fasttrack_agent, h, ht, Bool.false_eq_true, if_false]
    decide
  · intro h
    have ht : (JVal.str "").truthy = false := by decide
    simp only [fasttrack_agent, h, ht, Bool.false_eq_true, if_false]
    decide

/-- Witness for C10: oracle answering yes or no is ignored on a falsy
damage value. -/
theorem fasttrack_falsy_skips_oracle_witness :
    fasttrack_agent (some false) (damageRecord (JVal.num 0)) = true :=
  (fasttrack_falsy_skips_oracle (some false) (damageRecord (JVal.num 0))).1 (by decide)
